import Mathlib

/-!
Verification development for the Geo-Lookup Database Service
(`backend/internal/service/geolite_service.go` of pocket-id).

The Go source is shallowly embedded: pure helpers become Lean functions;
the filesystem, HTTP client, archive stream and database decoder become
explicit state/oracle values threaded through the pipeline functions, with
an event trace recording the externally observable actions (HTTP GET,
opening the staged file with the decoder, the rename onto the public path,
opening the database during a lookup).
-/

namespace GeoLite

/-! ## IP addresses

Go's `net.IP` is a byte slice; `ParseIP` yields a value whose `To4()` is
non-nil exactly when the address is IPv4 or an IPv4-mapped IPv6 address
(`::ffff:a.b.c.d`).  We represent that distinction directly: `v4 n` is a
32-bit address (covering both textual IPv4 and IPv4-mapped IPv6, which Go
treats identically in `To4`-based checks), `v6 n` is a 128-bit address that
is not IPv4-mapped. -/

inductive IPAddr where
  | v4 (n : Nat)
  | v6 (n : Nat)
deriving DecidableEq, Repr

def IPAddr.isV4 : IPAddr → Bool
  | .v4 _ => true
  | .v6 _ => false

def IPAddr.isV6 : IPAddr → Bool
  | .v4 _ => false
  | .v6 _ => true

/-- An IPv4 CIDR block, as built by `net.IPv4(...)` + `net.CIDRMask(p, 32)`. -/
structure IPNet4 where
  addr : Nat
  prefixLen : Nat
deriving DecidableEq, Repr

/-- An IPv6 CIDR block (16-byte address, `net.CIDRMask(p, 128)`). -/
structure IPNet6 where
  addr : Nat
  prefixLen : Nat
deriving DecidableEq, Repr

/-- Go `(*net.IPNet).Contains` on a 4-byte network: the candidate is reduced
with `To4` (so only `v4` addresses can match; a 16-byte non-mapped address has
mismatched length and never matches), then the top `prefixLen` bits are
compared.  Comparing the quotients by `2^(32-p)` is exactly the masked
comparison Go performs. -/
def IPNet4.contains (net : IPNet4) : IPAddr → Bool
  | .v4 n => n / 2 ^ (32 - net.prefixLen) == net.addr / 2 ^ (32 - net.prefixLen)
  | .v6 _ => false

/-- Go `(*net.IPNet).Contains` on a 16-byte network: a `To4`-reducible
candidate has length 4 and never matches; otherwise the top `prefixLen` bits
are compared. -/
def IPNet6.contains (net : IPNet6) : IPAddr → Bool
  | .v4 _ => false
  | .v6 n => n / 2 ^ (128 - net.prefixLen) == net.addr / 2 ^ (128 - net.prefixLen)

/-- A network as stored in the Go service's `[]*net.IPNet` lists. -/
inductive IPNet where
  | net4 (net : IPNet4)
  | net6 (net : IPNet6)
deriving DecidableEq, Repr

def IPNet.contains : IPNet → IPAddr → Bool
  | .net4 n, a => n.contains a
  | .net6 n, a => n.contains a

/-- Shorthand for the value of `net.IPv4(a, b, c, d)` seen as a 32-bit number. -/
def ipv4Octets (a b c d : Nat) : Nat := ((a * 256 + b) * 256 + c) * 256 + d

/-- `localhostIPNets` from the source: 127.0.0.0/8 and ::1/128. -/
def localhostIPNets : List IPNet :=
  [.net4 ⟨ipv4Octets 127 0 0 0, 8⟩, .net6 ⟨1, 128⟩]

/-- `privateLanIPNets` from the source: 10.0.0.0/8, 172.16.0.0/12, 192.168.0.0/16. -/
def privateLanIPNets : List IPNet :=
  [.net4 ⟨ipv4Octets 10 0 0 0, 8⟩,
   .net4 ⟨ipv4Octets 172 16 0 0, 12⟩,
   .net4 ⟨ipv4Octets 192 168 0 0, 16⟩]

/-- `tailscaleIPNets` from the source: 100.64.0.0/10. -/
def tailscaleIPNets : List IPNet :=
  [.net4 ⟨ipv4Octets 100 64 0 0, 10⟩]

def containsAny (nets : List IPNet) (a : IPAddr) : Bool :=
  nets.any (fun net => net.contains a)

/-! ## Textual IP parsing (Go `net.ParseIP` / `net.ParseCIDR`)

These are external standard-library dependencies of the source file; they are
modelled from Go's documented parsing rules (dotted-quad IPv4 with fields of
at most 3 digits, value at most 255 and no leading zeros; IPv6 with 1–4 hex
digit groups, at most one `::` which must expand to at least one zero group,
and an optional trailing embedded dotted IPv4 counting as two groups).
All string work is done on the character list so every function is
structurally recursive and kernel-computable. -/

def splitOnChar (sep : Char) : List Char → List (List Char)
  | [] => [[]]
  | c :: rest =>
    if c = sep then [] :: splitOnChar sep rest
    else
      match splitOnChar sep rest with
      | h :: t => (c :: h) :: t
      | [] => [[c]]

/-- Leftmost, non-overlapping split on the two-character separator `::`. -/
def splitDoubleColon : List Char → List (List Char)
  | [] => [[]]
  | ':' :: ':' :: rest => [] :: splitDoubleColon rest
  | c :: rest =>
    match splitDoubleColon rest with
    | h :: t => (c :: h) :: t
    | [] => [[c]]

/-- Go `unicode.IsSpace`, the predicate `strings.TrimSpace` trims by: the
Unicode White_Space property — U+0009–U+000D, space, NEL, NBSP, U+1680,
U+2000–U+200A, U+2028, U+2029, U+202F, U+205F and U+3000. -/
def goIsSpace (c : Char) : Bool :=
  let n := c.toNat
  decide ((9 ≤ n ∧ n ≤ 13) ∨ n = 32 ∨ n = 0x85 ∨ n = 0xA0 ∨ n = 0x1680 ∨
    (0x2000 ≤ n ∧ n ≤ 0x200A) ∨ n = 0x2028 ∨ n = 0x2029 ∨ n = 0x202F ∨
    n = 0x205F ∨ n = 0x3000)

/-- Go `strings.TrimSpace`. -/
def trimChars (cs : List Char) : List Char :=
  ((cs.dropWhile goIsSpace).reverse.dropWhile goIsSpace).reverse

def hexDigitVal (c : Char) : Option Nat :=
  if '0' ≤ c ∧ c ≤ '9' then some (c.toNat - 48)
  else if 'a' ≤ c ∧ c ≤ 'f' then some (c.toNat - 97 + 10)
  else if 'A' ≤ c ∧ c ≤ 'F' then some (c.toNat - 65 + 10)
  else none

/-- One dotted-quad field: 1–3 decimal digits, no leading zero, at most 255. -/
def parseIPv4Field (cs : List Char) : Option Nat :=
  if cs = [] then none
  else if ¬ cs.all Char.isDigit then none
  else if cs.length > 1 ∧ cs.head? = some '0' then none
  else if cs.length > 3 then none
  else
    let n := cs.foldl (fun acc c => acc * 10 + (c.toNat - 48)) 0
    if n > 255 then none else some n

/-- Dotted-quad IPv4 address as a 32-bit number. -/
def parseIPv4Chars (cs : List Char) : Option Nat :=
  match (splitOnChar '.' cs).mapM parseIPv4Field with
  | some [a, b, c, d] => some (ipv4Octets a b c d)
  | _ => none

/-- One IPv6 group: 1–4 hex digits. -/
def parseHexGroup (cs : List Char) : Option Nat :=
  if cs = [] ∨ cs.length > 4 then none
  else (cs.mapM hexDigitVal).map (fun ds => ds.foldl (fun acc d => acc * 16 + d) 0)

/-- Parse a `:`-separated run of IPv6 groups; the final group may be an
embedded dotted IPv4 (counting as two 16-bit groups).  Returns the number of
16-bit groups and their value. -/
def parseV6Groups : List (List Char) → Option (Nat × Nat)
  | [] => some (0, 0)
  | [g] =>
    if g.contains '.' then (parseIPv4Chars g).map (fun v => (2, v))
    else (parseHexGroup g).map (fun v => (1, v))
  | g :: rest => do
    let hi ← parseHexGroup g
    let (n, lo) ← parseV6Groups rest
    pure (n + 1, hi * 2 ^ (16 * n) + lo)

/-- IPv6 textual address as a 128-bit number. -/
def parseIPv6Chars (cs : List Char) : Option Nat :=
  match splitDoubleColon cs with
  | [t] => do
    let (n, v) ← parseV6Groups (splitOnChar ':' t)
    if n = 8 then pure v else none
  | [l, r] =>
    let lparts := if l = [] then [] else splitOnChar ':' l
    let rparts := if r = [] then [] else splitOnChar ':' r
    if lparts.any (fun p => p.contains '.') then none
    else do
      let (ln, lv) ← parseV6Groups lparts
      let (rn, rv) ← parseV6Groups rparts
      if ln + rn ≥ 8 then none
      else pure (lv * 2 ^ (16 * (8 - ln)) + rv)
  | _ => none

/-- Go `net.ParseIP`: dispatch on the first `.` or `:`; an IPv4-mapped IPv6
result (`::ffff:a.b.c.d`, top 96 bits equal to 0xffff) is the `v4` case, which
is how `To4`-based checks see it. -/
def parseIP (s : String) : Option IPAddr :=
  match s.data.find? (fun c => c = '.' ∨ c = ':') with
  | some '.' => (parseIPv4Chars s.data).map .v4
  | some ':' =>
    (parseIPv6Chars s.data).map fun n =>
      if n / 2 ^ 32 = 0xffff then .v4 (n % 2 ^ 32) else .v6 n
  | _ => none

/-- Result of Go `net.ParseCIDR`: the notation family (needed because the
service rejects ranges whose `IP.To4()` is non-nil, i.e. dotted notation or an
IPv4-mapped IPv6 address), raw address bits and prefix length. -/
structure GoCIDR where
  v4notation : Bool
  addr : Nat
  prefixLen : Nat
deriving DecidableEq, Repr

/-- Decimal prefix length after the slash: digits only (Go's `dtoi`). -/
def parsePrefixDigits (cs : List Char) : Option Nat :=
  if cs = [] ∨ ¬ cs.all Char.isDigit then none
  else some (cs.foldl (fun acc c => acc * 10 + (c.toNat - 48)) 0)

/-- Go `net.ParseCIDR`. -/
def parseCIDR (s : String) : Option GoCIDR :=
  match splitOnChar '/' s.data with
  | [addr, mask] => do
    let n ← parsePrefixDigits mask
    match addr.find? (fun c => c = '.' ∨ c = ':') with
    | some '.' => do
      let v ← parseIPv4Chars addr
      if n ≤ 32 then pure ⟨true, v, n⟩ else none
    | some ':' => do
      let v ← parseIPv6Chars addr
      if n ≤ 128 then pure ⟨false, v, n⟩ else none
    | _ => none
  | _ => none

/-- The `ipNet.IP.To4() != nil` rejection test of `initializeIPv6LocalRanges`.
`net.ParseCIDR` returns the network with `IP` already masked (`ip.Mask(mask)`),
so the test sees the masked address: dotted notation always has a 4-byte `IP`;
IPv6 notation is an IPv4 range exactly when the masked 16-byte address is
IPv4-mapped (top 96 bits equal to 0xffff). -/
def GoCIDR.isIPv4Net (c : GoCIDR) : Bool :=
  c.v4notation ||
    ((c.addr / 2 ^ (128 - c.prefixLen) * 2 ^ (128 - c.prefixLen)) / 2 ^ 32 == 0xffff)

/-! ## Configuration and service construction -/

/-- The fields of `common.EnvConfig` this service reads. -/
structure EnvConfig where
  maxMindLicenseKey : String
  geoLiteDBUrl : String
  geoLiteDBPath : String
  localIPv6Ranges : String
deriving DecidableEq, Repr

/-- Modelled from the spec: `common.MaxMindGeoLiteCityUrl`, the default
MaxMind download URL template (a format string taking the license key), whose
defining file is not part of the sources; only its identity as the default
value of `GeoLiteDBUrl` matters to the claims. -/
def MaxMindGeoLiteCityUrl : String :=
  "https://download.maxmind.com/app/geoip_download?edition_id=GeoLite2-City&license_key=%s&suffix=tar.gz"

/-- State of a `GeoLiteService` value after construction (the HTTP client and
mutex carry no claim-relevant state). -/
structure GeoLiteService where
  disableUpdater : Bool
  localIPv6Ranges : List IPNet6
deriving Repr

/-- The loop body of `initializeIPv6LocalRanges`: each comma-separated entry is
trimmed, empty entries are skipped, a parse failure or an IPv4 range aborts
with an error (discarding everything), otherwise the parsed network is
appended. -/
def initRangesLoop : List (List Char) → Except String (List IPNet6)
  | [] => .ok []
  | r :: rest =>
    let rs := trimChars r
    if rs = [] then initRangesLoop rest
    else
      match parseCIDR (String.mk rs) with
      | none => .error ("invalid IPv6 range " ++ String.mk rs)
      | some c =>
        if c.isIPv4Net then .error ("range " ++ String.mk rs ++ " is not a valid IPv6 range")
        else
          match initRangesLoop rest with
          | .error msg => .error msg
          | .ok tail => .ok (⟨c.addr, c.prefixLen⟩ :: tail)

/-- A comma-separated entry that makes `initializeIPv6LocalRanges` fail: after
trimming it is non-empty and either does not parse as a CIDR or parses as an
IPv4 range. -/
def badRangeEntry (e : List Char) : Bool :=
  if trimChars e = [] then false
  else
    match parseCIDR (String.mk (trimChars e)) with
    | none => true
    | some c => c.isIPv4Net

/-- `initializeIPv6LocalRanges`: empty setting means no ranges; otherwise the
comma-separated list is processed.  On error the service's range list is left
untouched (nil). -/
def initializeIPv6LocalRanges (cfg : EnvConfig) : Except String (List IPNet6) :=
  if cfg.localIPv6Ranges = "" then .ok []
  else initRangesLoop (splitOnChar ',' cfg.localIPv6Ranges.data)

/-- `NewGeoLiteService`: the updater is disabled exactly when the license key
is empty and the URL is still the default; a range-parsing error is only
logged, leaving the range list empty.  Construction never fails. -/
def NewGeoLiteService (cfg : EnvConfig) : GeoLiteService :=
  { disableUpdater :=
      cfg.maxMindLicenseKey == "" && cfg.geoLiteDBUrl == MaxMindGeoLiteCityUrl
    localIPv6Ranges :=
      match initializeIPv6LocalRanges cfg with
      | .ok l => l
      | .error _ => [] }

def DisableUpdater (s : GeoLiteService) : Bool :=
  s.disableUpdater

/-! ## Lookup gateway -/

/-- `isLocalIPv6`: addresses with a non-nil `To4()` are never local-IPv6; a
16-byte address is tested against each configured range. -/
def isLocalIPv6 (ranges : List IPNet6) (a : IPAddr) : Bool :=
  match a with
  | .v4 _ => false
  | .v6 _ => ranges.any (fun r => r.contains a)

inductive GoErr where
  | invalidAddress
  | dbOpenFailed
  | dbDecodeFailed
deriving DecidableEq, Repr

/-- Oracle for the maxminddb side of a lookup: opening the current database
file can fail, decoding can fail, or a record is produced (absent `names["en"]`
keys already read back as `""`, as a Go map lookup does). -/
inductive LookupDB where
  | openFail
  | decodeFail
  | record (country city : String)
deriving DecidableEq, Repr

inductive LEvent where
  | dbOpen
deriving DecidableEq, Repr

/-- The open+decode tail of `GetLocationByIP` (runs under the read lock); the
`dbOpen` event marks the `maxminddb.Open` attempt on the public path. -/
def dbLookup (w : LookupDB) : Except GoErr (String × String) × List LEvent :=
  match w with
  | .openFail => (.error .dbOpenFailed, [.dbOpen])
  | .decodeFail => (.error .dbDecodeFailed, [.dbOpen])
  | .record country city => (.ok (country, city), [.dbOpen])

/-- `GetLocationByIP`.  The early returns of the classifier block are modelled
by the `classified` option; `netip.ParseAddr` on the fall-through path is
modelled by the same parser as `net.ParseIP` (they accept the same strings on
every input `net.ParseIP` accepts). -/
def GetLocationByIP (s : GeoLiteService) (w : LookupDB) (ipAddress : String) :
    Except GoErr (String × String) × List LEvent :=
  if ipAddress = "" then (.ok ("", ""), [])
  else
    let classified : Option (String × String) :=
      match parseIP ipAddress with
      | some ip =>
        if isLocalIPv6 s.localIPv6Ranges ip then some ("Internal Network", "LAN")
        else if containsAny tailscaleIPNets ip then some ("Internal Network", "Tailscale")
        else if containsAny privateLanIPNets ip then some ("Internal Network", "LAN")
        else if containsAny localhostIPNets ip then some ("Internal Network", "localhost")
        else none
      | none => none
    match classified with
    | some p => (.ok p, [])
    | none =>
      match parseIP ipAddress with
      | none => (.error .invalidAddress, [])
      | some _ => dbLookup w

/-- The Range Classifier exactly as the spec words it (§4.1): strict
precedence, first match wins — (1) IPv6 in a configured local range, (2) IPv4
in 100.64.0.0/10, (3) IPv4 in 10/8, 172.16/12 or 192.168/16, (4) 127.0.0.0/8
or ::1/128, (5) no match. -/
def classifySpec (ranges : List IPNet6) (a : IPAddr) : Option (String × String) :=
  if a.isV6 && ranges.any (fun r => r.contains a) then some ("Internal Network", "LAN")
  else if a.isV4 && containsAny tailscaleIPNets a then some ("Internal Network", "Tailscale")
  else if a.isV4 && containsAny privateLanIPNets a then some ("Internal Network", "LAN")
  else if containsAny localhostIPNets a then some ("Internal Network", "localhost")
  else none

/-! ## Update pipeline

The filesystem visible to the pipeline is the public database path (content
and modification time) plus this call's staging file.  External effects —
`os.Stat` freshness data, the HTTP client, the gzip/tar stream, `os.CreateTemp`,
`io.Copy`, `maxminddb.Open` on the staged file and `os.Rename` — are oracles in
`UpdateWorld`; the archive arrives pre-split into tar entries (header type
flag, name, declared size, byte content). -/

/-- File contents are byte lists. -/
abbrev Content := List Nat

structure FS where
  public : Option (Content × Int)
  temp : Option Content
deriving DecidableEq, Repr

structure TarEntry where
  typeflag : Nat
  name : String
  size : Nat
  content : Content
deriving DecidableEq, Repr

/-- `tar.TypeReg` is the byte value of the character 0. -/
def tarTypeReg : Nat := 48

def dbFileName : String := "GeoLite2-City.mmdb"

/-- The 300 MiB decompression ceiling from `extractDatabase`. -/
def maxTotalSize : Nat := 300 * 1024 * 1024

/-- Fourteen days as a Go `time.Duration` (nanoseconds). -/
def fourteenDays : Int := 14 * 24 * 60 * 60 * 1000000000

structure UpdateWorld where
  now : Int
  newRequestOk : Bool
  httpStatus : Option Nat
  gzipOk : Bool
  entries : List TarEntry
  tarTrailerErr : Bool
  createTempOk : Bool
  copyOk : Bool
  openValid : Content → Bool
  renameOk : Bool

inductive UErr where
  | newRequestFailed
  | downloadFailed
  | httpStatusBad (code : Nat)
  | gzipFailed
  | tarReadFailed
  | sizeLimitExceeded
  | createTempFailed
  | writeFailed
  | validateFailed
  | renameFailed
  | notFoundInArchive
deriving DecidableEq, Repr

inductive UEvent where
  | httpGet (url : String)
  | stagedOpen (content : Content) (ok : Bool)
  | rename (content : Content)
deriving DecidableEq, Repr

/-- `filepath.Base`. -/
def filepathBase (path : String) : String :=
  if path = "" then "."
  else
    let p := (path.data.reverse.dropWhile (fun c => c = '/')).reverse
    if p = [] then "/"
    else String.mk ((p.reverse.takeWhile (fun c => c ≠ '/')).reverse)

/-- The entry test of `extractDatabase`: a regular file whose base name is the
expected database filename. -/
def isMatchEntry (e : TarEntry) : Bool :=
  e.typeflag == tarTypeReg && filepathBase e.name == dbFileName

/-- The body run for a matching entry whose size check passed: create the
staging file in the database's directory, stream the entry into it (removing
it on a write error), open it with the decoder (removing it on failure), then
rename it onto the public path under the write lock (removing it if the rename
fails). -/
def processMatch (w : UpdateWorld) (fs : FS) (e : TarEntry) :
    Except UErr Unit × FS × List UEvent :=
  if w.createTempOk then
    let fs1 : FS := { fs with temp := some [] }
    if w.copyOk then
      let fs2 : FS := { fs1 with temp := some e.content }
      if w.openValid e.content then
        if w.renameOk then
          (.ok (), { public := some (e.content, w.now), temp := none },
            [.stagedOpen e.content true, .rename e.content])
        else
          (.error .renameFailed, { fs2 with temp := none },
            [.stagedOpen e.content true, .rename e.content])
      else
        (.error .validateFailed, { fs2 with temp := none },
          [.stagedOpen e.content false])
    else
      (.error .writeFailed, { fs1 with temp := none }, [])
  else
    (.error .createTempFailed, fs, [])

/-- The entry loop of `extractDatabase`: skip non-matching entries; at the
first matching entry add its declared size to the running total and abort if
the ceiling is exceeded, otherwise stage and install it; an exhausted archive
is a tar-trailer error or a not-found error. -/
def extractLoop (w : UpdateWorld) (fs : FS) :
    Nat → List TarEntry → Except UErr Unit × FS × List UEvent
  | _, [] =>
    if w.tarTrailerErr then (.error .tarReadFailed, fs, [])
    else (.error .notFoundInArchive, fs, [])
  | totalSize, e :: rest =>
    if isMatchEntry e then
      if totalSize + e.size > maxTotalSize then (.error .sizeLimitExceeded, fs, [])
      else processMatch w fs e
    else extractLoop w fs totalSize rest

/-- `extractDatabase`. -/
def extractDatabase (w : UpdateWorld) (fs : FS) :
    Except UErr Unit × FS × List UEvent :=
  if w.gzipOk then extractLoop w fs 0 w.entries
  else (.error .gzipFailed, fs, [])

/-- `isDatabaseUpToDate`: a missing file (or stat error) is never up to date;
otherwise the age must be under 14 days. -/
def isDatabaseUpToDate (now : Int) (fs : FS) : Bool :=
  match fs.public with
  | none => false
  | some (_, modTime) => now - modTime < fourteenDays

/-- Leftmost, non-overlapping split on the two-character verb `%s`. -/
def splitPercentS : List Char → List (List Char)
  | [] => [[]]
  | '%' :: 's' :: rest => [] :: splitPercentS rest
  | c :: rest =>
    match splitPercentS rest with
    | h :: t => (c :: h) :: t
    | [] => [[c]]

def joinMissingVerb : List (List Char) → String
  | [] => ""
  | [x] => String.mk x
  | x :: xs => String.mk x ++ "%!s(MISSING)" ++ joinMissingVerb xs

/-- Go `fmt.Sprintf(format, arg)` for format strings whose only verbs are
`%s`: the first verb receives the argument, later verbs render as missing,
and a verb-free format appends the extra-argument marker. -/
def sprintfS (format arg : String) : String :=
  match splitPercentS format.data with
  | [] => format
  | [x] => String.mk x ++ "%!(EXTRA string=" ++ arg ++ ")"
  | x :: rest => String.mk x ++ arg ++ joinMissingVerb rest

/-- `UpdateDatabase`: short-circuit on a fresh database; otherwise format the
download URL from the configured template and license key, build the request,
perform the GET (the `httpGet` event marks `httpClient.Do`), require status
200, and extract. -/
def UpdateDatabase (cfg : EnvConfig) (w : UpdateWorld) (fs : FS) :
    Except UErr Unit × FS × List UEvent :=
  if isDatabaseUpToDate w.now fs then (.ok (), fs, [])
  else
    let downloadUrl := sprintfS cfg.geoLiteDBUrl cfg.maxMindLicenseKey
    if w.newRequestOk then
      match w.httpStatus with
      | none => (.error .downloadFailed, fs, [.httpGet downloadUrl])
      | some code =>
        if code = 200 then
          let t := extractDatabase w fs
          (t.1, t.2.1, .httpGet downloadUrl :: t.2.2)
        else (.error (.httpStatusBad code), fs, [.httpGet downloadUrl])
    else (.error .newRequestFailed, fs, [])

/-- Scanning check that every `rename` event in a trace names a content that
an earlier successful staged-decoder open validated. -/
def renamedOnlyValidated : List UEvent → List Content → Bool
  | [], _ => true
  | .stagedOpen c true :: rest, vs => renamedOnlyValidated rest (c :: vs)
  | .rename c :: rest, vs => vs.contains c && renamedOnlyValidated rest vs
  | _ :: rest, vs => renamedOnlyValidated rest vs

/-! ## Helper lemmas -/

lemma parseIP_empty : parseIP "" = none := rfl

lemma parseIP_ne_empty {s : String} {a : IPAddr} (h : parseIP s = some a) : s ≠ "" := by
  intro he
  rw [he, parseIP_empty] at h
  cases h

lemma classified_eq_spec (ranges : List IPNet6) (a : IPAddr) :
    (if isLocalIPv6 ranges a then some ("Internal Network", "LAN")
     else if containsAny tailscaleIPNets a then some ("Internal Network", "Tailscale")
     else if containsAny privateLanIPNets a then some ("Internal Network", "LAN")
     else if containsAny localhostIPNets a then some ("Internal Network", "localhost")
     else none) = classifySpec ranges a := by
  cases a <;>
    simp [classifySpec, isLocalIPv6, IPAddr.isV4, IPAddr.isV6, containsAny,
      tailscaleIPNets, privateLanIPNets, IPNet.contains, IPNet4.contains]

lemma getLocation_parsed (s : GeoLiteService) (w : LookupDB) (str : String) (a : IPAddr)
    (h : parseIP str = some a) :
    GetLocationByIP s w str =
      match classifySpec s.localIPv6Ranges a with
      | some p => (.ok p, [])
      | none => dbLookup w := by
  have hne : str ≠ "" := parseIP_ne_empty h
  simp only [GetLocationByIP, if_neg hne, h, classified_eq_spec]

/-! ## Claims about construction and the updater flag -/

/-- Claim C9: for the empty input string, the lookup returns empty country,
empty city and no error. -/
theorem lookup_empty_input (s : GeoLiteService) (w : LookupDB) :
    GetLocationByIP s w "" = (.ok ("", ""), []) := rfl

/-- Counterexample to claim C3 as stated: a configuration with an empty
license key but a non-default URL leaves the updater enabled. -/
theorem updater_disabled_counterexample :
    (EnvConfig.mk "" (MaxMindGeoLiteCityUrl ++ "x") "/p" "").maxMindLicenseKey = "" ∧
    DisableUpdater (NewGeoLiteService (EnvConfig.mk "" (MaxMindGeoLiteCityUrl ++ "x") "/p" "")) =
      false := by
  exact ⟨rfl, by decide⟩

/-- Claim C3 as amended: if the license key is empty and the database URL is
the default MaxMind URL, `UpdaterDisabled` reports true. -/
theorem updater_disabled_amended (cfg : EnvConfig)
    (hkey : cfg.maxMindLicenseKey = "") (hurl : cfg.geoLiteDBUrl = MaxMindGeoLiteCityUrl) :
    DisableUpdater (NewGeoLiteService cfg) = true := by
  simp [DisableUpdater, NewGeoLiteService, hkey, hurl]

theorem updater_disabled_amended_witness :
    DisableUpdater (NewGeoLiteService (EnvConfig.mk "" MaxMindGeoLiteCityUrl "/p" "")) = true :=
  updater_disabled_amended (EnvConfig.mk "" MaxMindGeoLiteCityUrl "/p" "") rfl rfl

/-! ## Claims about the range classifier -/

/-- Claim C6: for every parseable IP address, the lookup's classifier section
agrees with the spec's strict-precedence cascade (first match wins), and on no
match the lookup proceeds to the database. -/
theorem classifier_precedence (s : GeoLiteService) (w : LookupDB) (str : String) (a : IPAddr)
    (h : parseIP str = some a) :
    GetLocationByIP s w str =
      match classifySpec s.localIPv6Ranges a with
      | some p => (.ok p, [])
      | none => dbLookup w :=
  getLocation_parsed s w str a h

theorem classifier_precedence_witness :
    parseIP "100.64.0.5" = some (.v4 1681915909) ∧
    GetLocationByIP ⟨true, []⟩ .openFail "100.64.0.5" =
      match classifySpec [] (IPAddr.v4 1681915909) with
      | some p => (.ok p, [])
      | none => dbLookup .openFail :=
  ⟨by decide, classifier_precedence ⟨true, []⟩ .openFail "100.64.0.5" (.v4 1681915909) (by decide)⟩

lemma tailscale_v4_iff (n : Nat) :
    containsAny tailscaleIPNets (.v4 n) = true ↔ n / 4194304 = 401 := by
  simp [containsAny, tailscaleIPNets, IPNet.contains, IPNet4.contains, ipv4Octets]

lemma private_v4_iff (n : Nat) :
    containsAny privateLanIPNets (.v4 n) = true ↔
      n / 16777216 = 10 ∨ n / 1048576 = 2753 ∨ n / 65536 = 49320 := by
  simp [containsAny, privateLanIPNets, IPNet.contains, IPNet4.contains, ipv4Octets]

lemma localhost_v4_iff (n : Nat) :
    containsAny localhostIPNets (.v4 n) = true ↔ n / 16777216 = 127 := by
  simp [containsAny, localhostIPNets, IPNet.contains, IPNet4.contains, IPNet6.contains,
    ipv4Octets]

/-- Counterexample to claim C7 as stated: with `::/0` among the configured
local IPv6 ranges, `::1` classifies as LAN (classifier step 1), not as its
listed "localhost" label. -/
theorem internal_ranges_counterexample :
    GetLocationByIP (NewGeoLiteService (EnvConfig.mk "" "u" "/p" "::/0")) .openFail "::1" =
      (.ok ("Internal Network", "LAN"), []) ∧
    (("Internal Network", "LAN") : String × String) ≠ ("Internal Network", "localhost") := by
  exact ⟨rfl, by decide⟩

/-- Claim C7 as amended: for every address in one of the listed IPv4 ranges
the lookup returns the corresponding internal pair with no error and without
opening the database; for ::1 it does the same, returning "localhost" when ::1
is not covered by a configured local IPv6 range and "LAN" when it is. -/
theorem internal_ranges_skip_db (s : GeoLiteService) (w : LookupDB) (str : String) (a : IPAddr)
    (h : parseIP str = some a) :
    (containsAny tailscaleIPNets a = true →
      GetLocationByIP s w str = (.ok ("Internal Network", "Tailscale"), []))
    ∧ (containsAny privateLanIPNets a = true →
      GetLocationByIP s w str = (.ok ("Internal Network", "LAN"), []))
    ∧ (a.isV4 = true → containsAny localhostIPNets a = true →
      GetLocationByIP s w str = (.ok ("Internal Network", "localhost"), []))
    ∧ (a = .v6 1 →
      GetLocationByIP s w str =
        ((if isLocalIPv6 s.localIPv6Ranges (.v6 1)
          then .ok ("Internal Network", "LAN")
          else .ok ("Internal Network", "localhost")), [])) := by
  rw [getLocation_parsed s w str a h]
  refine ⟨?_, ?_, ?_, ?_⟩
  · intro ht
    cases a with
    | v6 m => simp [containsAny, tailscaleIPNets, IPNet.contains, IPNet4.contains] at ht
    | v4 n => simp [classifySpec, IPAddr.isV4, IPAddr.isV6, ht]
  · intro hp
    cases a with
    | v6 m => simp [containsAny, privateLanIPNets, IPNet.contains, IPNet4.contains] at hp
    | v4 n =>
      have ht : containsAny tailscaleIPNets (IPAddr.v4 n) = false := by
        rw [← Bool.not_eq_true, tailscale_v4_iff]
        rcases (private_v4_iff n).mp hp with h1 | h1 | h1 <;> omega
      simp [classifySpec, IPAddr.isV4, IPAddr.isV6, hp, ht]
  · intro h4 hl
    cases a with
    | v6 m => cases h4
    | v4 n =>
      have h127 : n / 16777216 = 127 := (localhost_v4_iff n).mp hl
      have ht : containsAny tailscaleIPNets (IPAddr.v4 n) = false := by
        rw [← Bool.not_eq_true, tailscale_v4_iff]; omega
      have hp : containsAny privateLanIPNets (IPAddr.v4 n) = false := by
        rw [← Bool.not_eq_true, private_v4_iff]
        push_neg
        refine ⟨by omega, by omega, by omega⟩
      simp [classifySpec, IPAddr.isV4, IPAddr.isV6, hl, ht, hp]
  · intro h6
    subst h6
    have hl : containsAny localhostIPNets (IPAddr.v6 1) = true := by decide
    by_cases hr : s.localIPv6Ranges.any (fun r => r.contains (IPAddr.v6 1)) = true <;>
      simp [classifySpec, isLocalIPv6, IPAddr.isV4, IPAddr.isV6, hl, hr]

theorem internal_ranges_skip_db_witness :
    GetLocationByIP ⟨true, []⟩ .openFail "10.0.0.1" = (.ok ("Internal Network", "LAN"), []) :=
  (internal_ranges_skip_db ⟨true, []⟩ .openFail "10.0.0.1" (.v4 167772161)
    (by decide)).2.1 (by decide)

/-! ## Pipeline branch equations -/

lemma updateDatabase_fresh (cfg : EnvConfig) (w : UpdateWorld) (fs : FS)
    (hup : isDatabaseUpToDate w.now fs = true) :
    UpdateDatabase cfg w fs = (.ok (), fs, []) := by
  simp [UpdateDatabase, hup]

lemma updateDatabase_noReq (cfg : EnvConfig) (w : UpdateWorld) (fs : FS)
    (hup : isDatabaseUpToDate w.now fs = false) (hreq : w.newRequestOk = false) :
    UpdateDatabase cfg w fs = (.error .newRequestFailed, fs, []) := by
  simp [UpdateDatabase, hup, hreq]

lemma updateDatabase_noResp (cfg : EnvConfig) (w : UpdateWorld) (fs : FS)
    (hup : isDatabaseUpToDate w.now fs = false) (hreq : w.newRequestOk = true)
    (hst : w.httpStatus = none) :
    UpdateDatabase cfg w fs =
      (.error .downloadFailed, fs,
        [.httpGet (sprintfS cfg.geoLiteDBUrl cfg.maxMindLicenseKey)]) := by
  simp [UpdateDatabase, hup, hreq, hst]

lemma updateDatabase_badStatus (cfg : EnvConfig) (w : UpdateWorld) (fs : FS) (code : Nat)
    (hup : isDatabaseUpToDate w.now fs = false) (hreq : w.newRequestOk = true)
    (hst : w.httpStatus = some code) (hc : code ≠ 200) :
    UpdateDatabase cfg w fs =
      (.error (.httpStatusBad code), fs,
        [.httpGet (sprintfS cfg.geoLiteDBUrl cfg.maxMindLicenseKey)]) := by
  simp [UpdateDatabase, hup, hreq, hst, hc]

lemma updateDatabase_200 (cfg : EnvConfig) (w : UpdateWorld) (fs : FS)
    (hup : isDatabaseUpToDate w.now fs = false) (hreq : w.newRequestOk = true)
    (hst : w.httpStatus = some 200) :
    UpdateDatabase cfg w fs =
      ((extractDatabase w fs).1, (extractDatabase w fs).2.1,
        .httpGet (sprintfS cfg.geoLiteDBUrl cfg.maxMindLicenseKey) ::
          (extractDatabase w fs).2.2) := by
  simp [UpdateDatabase, hup, hreq, hst]

lemma extractDatabase_noGzip (w : UpdateWorld) (fs : FS) (hgz : w.gzipOk = false) :
    extractDatabase w fs = (.error .gzipFailed, fs, []) := by
  simp [extractDatabase, hgz]

lemma extractDatabase_gzip (w : UpdateWorld) (fs : FS) (hgz : w.gzipOk = true) :
    extractDatabase w fs = extractLoop w fs 0 w.entries := by
  simp [extractDatabase, hgz]

/-! ## Extraction loop lemmas -/

lemma processMatch_cases (w : UpdateWorld) (fs : FS) (e : TarEntry) :
    ((∃ er, (processMatch w fs e).1 = Except.error er) ∧
      (processMatch w fs e).2.1.public = fs.public)
    ∨ ((processMatch w fs e).1 = .ok () ∧
        (processMatch w fs e).2.1 = ⟨some (e.content, w.now), none⟩ ∧
        w.openValid e.content = true ∧
        (processMatch w fs e).2.2 = [.stagedOpen e.content true, .rename e.content]) := by
  unfold processMatch
  by_cases h1 : w.createTempOk <;> by_cases h2 : w.copyOk <;>
    by_cases h3 : w.openValid e.content <;> by_cases h4 : w.renameOk <;>
    simp [h1, h2, h3, h4]

lemma processMatch_validated (w : UpdateWorld) (fs : FS) (e : TarEntry) (vs : List Content) :
    renamedOnlyValidated (processMatch w fs e).2.2 vs = true := by
  unfold processMatch
  by_cases h1 : w.createTempOk <;> by_cases h2 : w.copyOk <;>
    by_cases h3 : w.openValid e.content <;> by_cases h4 : w.renameOk <;>
    simp [h1, h2, h3, h4, renamedOnlyValidated]

lemma processMatch_openFail (w : UpdateWorld) (fs : FS) (e : TarEntry) (c : Content)
    (h : UEvent.stagedOpen c false ∈ (processMatch w fs e).2.2) :
    (processMatch w fs e).1 = .error .validateFailed ∧
    (processMatch w fs e).2.1.temp = none ∧
    (processMatch w fs e).2.1.public = fs.public := by
  unfold processMatch at h ⊢
  by_cases h1 : w.createTempOk <;> by_cases h2 : w.copyOk <;>
    by_cases h3 : w.openValid e.content <;> by_cases h4 : w.renameOk <;>
    simp [h1, h2, h3, h4] at h ⊢

lemma extractLoop_err_public (w : UpdateWorld) (fs : FS) (total : Nat) (l : List TarEntry)
    (er : UErr) (h : (extractLoop w fs total l).1 = .error er) :
    (extractLoop w fs total l).2.1.public = fs.public := by
  induction l generalizing total with
  | nil => by_cases ht : w.tarTrailerErr <;> simp [extractLoop, ht]
  | cons e rest ih =>
    by_cases hm : isMatchEntry e
    · by_cases hs : total + e.size > maxTotalSize
      · simp [extractLoop, hm, hs]
      · simp only [extractLoop, hm, if_true, hs, if_false] at h ⊢
        rcases processMatch_cases w fs e with ⟨_, hpub⟩ | ⟨hok, _, _, _⟩
        · exact hpub
        · rw [hok] at h; cases h
    · simp only [extractLoop, hm, if_false] at h ⊢
      exact ih total h

lemma extractLoop_changed (w : UpdateWorld) (fs : FS) (total : Nat) (l : List TarEntry)
    (h : (extractLoop w fs total l).2.1.public ≠ fs.public) :
    (extractLoop w fs total l).1 = .ok () ∧
    ∃ c, (extractLoop w fs total l).2.1.public = some (c, w.now) ∧
      w.openValid c = true ∧ UEvent.rename c ∈ (extractLoop w fs total l).2.2 := by
  induction l generalizing total with
  | nil => by_cases ht : w.tarTrailerErr <;> simp [extractLoop, ht] at h
  | cons e rest ih =>
    by_cases hm : isMatchEntry e
    · by_cases hs : total + e.size > maxTotalSize
      · simp [extractLoop, hm, hs] at h
      · simp only [extractLoop, hm, if_true, hs, if_false] at h ⊢
        rcases processMatch_cases w fs e with ⟨_, hpub⟩ | ⟨hok, hfs, hov, hev⟩
        · exact absurd hpub h
        · refine ⟨hok, e.content, ?_, hov, ?_⟩
          · rw [hfs]
          · rw [hev]; simp
    · simp only [extractLoop, hm, if_false] at h ⊢
      exact ih total h

lemma extractLoop_validated (w : UpdateWorld) (fs : FS) (total : Nat) (l : List TarEntry)
    (vs : List Content) :
    renamedOnlyValidated (extractLoop w fs total l).2.2 vs = true := by
  induction l generalizing total with
  | nil => by_cases ht : w.tarTrailerErr <;> simp [extractLoop, ht, renamedOnlyValidated]
  | cons e rest ih =>
    by_cases hm : isMatchEntry e
    · by_cases hs : total + e.size > maxTotalSize
      · simp [extractLoop, hm, hs, renamedOnlyValidated]
      · simp only [extractLoop, hm, if_true, hs, if_false]
        exact processMatch_validated w fs e vs
    · simp only [extractLoop, hm, if_false]
      exact ih total

lemma extractLoop_openFail (w : UpdateWorld) (fs : FS) (total : Nat) (l : List TarEntry)
    (c : Content) (h : UEvent.stagedOpen c false ∈ (extractLoop w fs total l).2.2) :
    (extractLoop w fs total l).1 = .error .validateFailed ∧
    (extractLoop w fs total l).2.1.temp = none ∧
    (extractLoop w fs total l).2.1.public = fs.public := by
  induction l generalizing total with
  | nil => by_cases ht : w.tarTrailerErr <;> simp [extractLoop, ht] at h
  | cons e rest ih =>
    by_cases hm : isMatchEntry e
    · by_cases hs : total + e.size > maxTotalSize
      · simp [extractLoop, hm, hs] at h
      · simp only [extractLoop, hm, if_true, hs, if_false] at h ⊢
        exact processMatch_openFail w fs e c h
    · simp only [extractLoop, hm, if_false] at h ⊢
      exact ih total h

lemma extractLoop_sizeLimit (w : UpdateWorld) (fs : FS) (l : List TarEntry) (e : TarEntry) :
    ∀ total, l.find? isMatchEntry = some e → total + e.size > maxTotalSize →
      extractLoop w fs total l = (.error .sizeLimitExceeded, fs, []) := by
  induction l with
  | nil => intro total hf hs; cases hf
  | cons x rest ih =>
    intro total hf hs
    by_cases hm : isMatchEntry x
    · have hx : x = e := by
        rw [List.find?_cons_of_pos _ hm] at hf
        exact Option.some.inj hf
      subst hx
      simp [extractLoop, hm, hs]
    · rw [List.find?_cons_of_neg _ hm] at hf
      simp only [extractLoop, hm, if_false]
      exact ih total hf hs

/-! ## Claims about the update pipeline -/

/-- Claim C1: every erroring execution of `UpdateDatabase` leaves the public
database path exactly as it was, and the only way the public path ever changes
is a successful run installing, by rename, a staging file the decoder
validated. -/
theorem update_fails_closed (cfg : EnvConfig) (w : UpdateWorld) (fs : FS) :
    (∀ er, (UpdateDatabase cfg w fs).1 = .error er →
      (UpdateDatabase cfg w fs).2.1.public = fs.public)
    ∧ ((UpdateDatabase cfg w fs).2.1.public ≠ fs.public →
      (UpdateDatabase cfg w fs).1 = .ok () ∧
      ∃ c, (UpdateDatabase cfg w fs).2.1.public = some (c, w.now) ∧
        w.openValid c = true ∧ UEvent.rename c ∈ (UpdateDatabase cfg w fs).2.2) := by
  by_cases hup : isDatabaseUpToDate w.now fs = true
  · rw [updateDatabase_fresh cfg w fs hup]
    exact ⟨fun er h => Except.noConfusion h, fun h => absurd rfl h⟩
  · replace hup : isDatabaseUpToDate w.now fs = false := Bool.eq_false_iff.mpr hup
    by_cases hreq : w.newRequestOk = true
    · cases hst : w.httpStatus with
      | none =>
        rw [updateDatabase_noResp cfg w fs hup hreq hst]
        exact ⟨fun er h => rfl, fun h => absurd rfl h⟩
      | some code =>
        by_cases hc : code = 200
        · subst hc
          rw [updateDatabase_200 cfg w fs hup hreq hst]
          by_cases hgz : w.gzipOk = true
          · rw [extractDatabase_gzip w fs hgz]
            constructor
            · intro er h
              exact extractLoop_err_public w fs 0 w.entries er h
            · intro h
              obtain ⟨hok, c, hc1, hc2, hc3⟩ := extractLoop_changed w fs 0 w.entries h
              exact ⟨hok, c, hc1, hc2, List.mem_cons_of_mem _ hc3⟩
          · rw [extractDatabase_noGzip w fs (Bool.eq_false_iff.mpr hgz)]
            exact ⟨fun er h => rfl, fun h => absurd rfl h⟩
        · rw [updateDatabase_badStatus cfg w fs code hup hreq hst hc]
          exact ⟨fun er h => rfl, fun h => absurd rfl h⟩
    · rw [updateDatabase_noReq cfg w fs hup (Bool.eq_false_iff.mpr hreq)]
      exact ⟨fun er h => rfl, fun h => absurd rfl h⟩

theorem update_fails_closed_witness :
    (UpdateDatabase (EnvConfig.mk "" MaxMindGeoLiteCityUrl "/p" "")
        ⟨0, true, some 404, true, [], false, true, true, (fun _ => true), true⟩
        ⟨some ([7], -2000000000000000), none⟩).2.1.public = some ([7], -2000000000000000) :=
  (update_fails_closed (EnvConfig.mk "" MaxMindGeoLiteCityUrl "/p" "")
    ⟨0, true, some 404, true, [], false, true, true, (fun _ => true), true⟩
    ⟨some ([7], -2000000000000000), none⟩).1 (.httpStatusBad 404) rfl

/-- Claim C2: in every execution, a staging file is renamed onto the public
path only after the decoder successfully opened that same staging file, and a
failed open deletes the staging file and fails the pipeline. -/
theorem staging_validated_before_rename (cfg : EnvConfig) (w : UpdateWorld) (fs : FS) :
    renamedOnlyValidated (UpdateDatabase cfg w fs).2.2 [] = true
    ∧ ∀ c, UEvent.stagedOpen c false ∈ (UpdateDatabase cfg w fs).2.2 →
        (UpdateDatabase cfg w fs).1 = .error .validateFailed ∧
        (UpdateDatabase cfg w fs).2.1.temp = none ∧
        (UpdateDatabase cfg w fs).2.1.public = fs.public := by
  by_cases hup : isDatabaseUpToDate w.now fs = true
  · rw [updateDatabase_fresh cfg w fs hup]
    exact ⟨rfl, fun c h => absurd h (by simp)⟩
  · replace hup : isDatabaseUpToDate w.now fs = false := Bool.eq_false_iff.mpr hup
    by_cases hreq : w.newRequestOk = true
    · cases hst : w.httpStatus with
      | none =>
        rw [updateDatabase_noResp cfg w fs hup hreq hst]
        exact ⟨rfl, fun c h => absurd h (by simp)⟩
      | some code =>
        by_cases hc : code = 200
        · subst hc
          rw [updateDatabase_200 cfg w fs hup hreq hst]
          by_cases hgz : w.gzipOk = true
          · rw [extractDatabase_gzip w fs hgz]
            constructor
            · exact extractLoop_validated w fs 0 w.entries []
            · intro c h
              have hmem : UEvent.stagedOpen c false ∈ (extractLoop w fs 0 w.entries).2.2 := by
                rcases List.mem_cons.mp h with heq | hmem
                · cases heq
                · exact hmem
              exact extractLoop_openFail w fs 0 w.entries c hmem
          · rw [extractDatabase_noGzip w fs (Bool.eq_false_iff.mpr hgz)]
            exact ⟨rfl, fun c h => absurd h (by simp)⟩
        · rw [updateDatabase_badStatus cfg w fs code hup hreq hst hc]
          exact ⟨rfl, fun c h => absurd h (by simp)⟩
    · rw [updateDatabase_noReq cfg w fs hup (Bool.eq_false_iff.mpr hreq)]
      exact ⟨rfl, fun c h => absurd h (by simp)⟩

theorem staging_validated_before_rename_witness :
    (UpdateDatabase (EnvConfig.mk "" MaxMindGeoLiteCityUrl "/p" "")
        ⟨5, true, some 200, true, [⟨48, "GeoLite2-City.mmdb", 3, [1, 2, 3]⟩], false, true, true,
          (fun _ => false), true⟩ ⟨none, none⟩).1 = .error .validateFailed ∧
    (UpdateDatabase (EnvConfig.mk "" MaxMindGeoLiteCityUrl "/p" "")
        ⟨5, true, some 200, true, [⟨48, "GeoLite2-City.mmdb", 3, [1, 2, 3]⟩], false, true, true,
          (fun _ => false), true⟩ ⟨none, none⟩).2.1.temp = none ∧
    (UpdateDatabase (EnvConfig.mk "" MaxMindGeoLiteCityUrl "/p" "")
        ⟨5, true, some 200, true, [⟨48, "GeoLite2-City.mmdb", 3, [1, 2, 3]⟩], false, true, true,
          (fun _ => false), true⟩ ⟨none, none⟩).2.1.public = none :=
  (staging_validated_before_rename (EnvConfig.mk "" MaxMindGeoLiteCityUrl "/p" "")
    ⟨5, true, some 200, true, [⟨48, "GeoLite2-City.mmdb", 3, [1, 2, 3]⟩], false, true, true,
      (fun _ => false), true⟩ ⟨none, none⟩).2 [1, 2, 3] (by decide)

/-- Claim C4: if the first matching archive entry pushes the running total of
matching-entry bytes over the 300 MiB ceiling, `UpdateDatabase` aborts
immediately with the size-limit error, with the filesystem (in particular the
installed database) byte-for-byte unchanged. -/
theorem size_limit_aborts (cfg : EnvConfig) (w : UpdateWorld) (fs : FS) (e : TarEntry)
    (hup : isDatabaseUpToDate w.now fs = false) (hreq : w.newRequestOk = true)
    (hst : w.httpStatus = some 200) (hgz : w.gzipOk = true)
    (hf : w.entries.find? isMatchEntry = some e) (hs : e.size > maxTotalSize) :
    UpdateDatabase cfg w fs =
      (.error .sizeLimitExceeded, fs,
        [.httpGet (sprintfS cfg.geoLiteDBUrl cfg.maxMindLicenseKey)]) := by
  rw [updateDatabase_200 cfg w fs hup hreq hst, extractDatabase_gzip w fs hgz,
    extractLoop_sizeLimit w fs w.entries e 0 hf (by omega)]

theorem size_limit_aborts_witness :
    UpdateDatabase (EnvConfig.mk "" MaxMindGeoLiteCityUrl "/p" "")
        ⟨0, true, some 200, true, [⟨48, "GeoLite2-City.mmdb", 314572801, []⟩], false, true, true,
          (fun _ => true), true⟩ ⟨none, none⟩ =
      (.error .sizeLimitExceeded, ⟨none, none⟩,
        [.httpGet (sprintfS MaxMindGeoLiteCityUrl "")]) :=
  size_limit_aborts (EnvConfig.mk "" MaxMindGeoLiteCityUrl "/p" "")
    ⟨0, true, some 200, true, [⟨48, "GeoLite2-City.mmdb", 314572801, []⟩], false, true, true,
      (fun _ => true), true⟩ ⟨none, none⟩ ⟨48, "GeoLite2-City.mmdb", 314572801, []⟩
    rfl rfl rfl rfl (by decide) (by decide)

/-- Claim C5: a database file younger than 14 days short-circuits the pipeline
with success, no HTTP request and no file change; a missing file is always
stale and the pipeline proceeds to the download step. -/
theorem freshness_short_circuit (cfg : EnvConfig) (w : UpdateWorld) (fs : FS) :
    (∀ c t, fs.public = some (c, t) → w.now - t < fourteenDays →
      UpdateDatabase cfg w fs = (.ok (), fs, []))
    ∧ (fs.public = none →
      isDatabaseUpToDate w.now fs = false ∧
      (w.newRequestOk = true →
        UEvent.httpGet (sprintfS cfg.geoLiteDBUrl cfg.maxMindLicenseKey) ∈
          (UpdateDatabase cfg w fs).2.2)) := by
  constructor
  · intro c t hp hage
    have hup : isDatabaseUpToDate w.now fs = true := by
      simp [isDatabaseUpToDate, hp, hage]
    exact updateDatabase_fresh cfg w fs hup
  · intro hp
    have hup : isDatabaseUpToDate w.now fs = false := by simp [isDatabaseUpToDate, hp]
    refine ⟨hup, fun hreq => ?_⟩
    cases hst : w.httpStatus with
    | none => rw [updateDatabase_noResp cfg w fs hup hreq hst]; simp
    | some code =>
      by_cases hc : code = 200
      · subst hc
        rw [updateDatabase_200 cfg w fs hup hreq hst]
        simp
      · rw [updateDatabase_badStatus cfg w fs code hup hreq hst hc]; simp

theorem freshness_short_circuit_witness :
    UpdateDatabase (EnvConfig.mk "" MaxMindGeoLiteCityUrl "/p" "")
        ⟨100, true, some 200, true, [], false, true, true, (fun _ => true), true⟩
        ⟨some ([7], 50), none⟩ =
      (.ok (), ⟨some ([7], 50), none⟩, []) ∧
    UEvent.httpGet (sprintfS MaxMindGeoLiteCityUrl "") ∈
      (UpdateDatabase (EnvConfig.mk "" MaxMindGeoLiteCityUrl "/p" "")
        ⟨100, true, none, true, [], false, true, true, (fun _ => true), true⟩
        ⟨none, none⟩).2.2 :=
  ⟨(freshness_short_circuit (EnvConfig.mk "" MaxMindGeoLiteCityUrl "/p" "")
      ⟨100, true, some 200, true, [], false, true, true, (fun _ => true), true⟩
      ⟨some ([7], 50), none⟩).1 [7] 50 rfl (by decide),
   ((freshness_short_circuit (EnvConfig.mk "" MaxMindGeoLiteCityUrl "/p" "")
      ⟨100, true, none, true, [], false, true, true, (fun _ => true), true⟩
      ⟨none, none⟩).2 rfl).2 rfl⟩

/-- Claim C10: `UpdateDatabase` never consults the updater-disabled flag — in
any configuration reporting `UpdaterDisabled() = true`, a direct call on a
stale or missing database still issues the HTTP GET with the (empty) license
key formatted into the URL. -/
theorem update_ignores_disable_flag (cfg : EnvConfig) (w : UpdateWorld) (fs : FS)
    (hdis : DisableUpdater (NewGeoLiteService cfg) = true)
    (hup : isDatabaseUpToDate w.now fs = false)
    (hreq : w.newRequestOk = true) :
    cfg.maxMindLicenseKey = "" ∧
    UEvent.httpGet (sprintfS cfg.geoLiteDBUrl cfg.maxMindLicenseKey) ∈
      (UpdateDatabase cfg w fs).2.2 := by
  have hkey : cfg.maxMindLicenseKey = "" := by
    simp only [DisableUpdater, NewGeoLiteService, Bool.and_eq_true, beq_iff_eq] at hdis
    exact hdis.1
  refine ⟨hkey, ?_⟩
  cases hst : w.httpStatus with
  | none => rw [updateDatabase_noResp cfg w fs hup hreq hst]; simp
  | some code =>
    by_cases hc : code = 200
    · subst hc
      rw [updateDatabase_200 cfg w fs hup hreq hst]
      simp
    · rw [updateDatabase_badStatus cfg w fs code hup hreq hst hc]; simp

theorem update_ignores_disable_flag_witness :
    (EnvConfig.mk "" MaxMindGeoLiteCityUrl "/p" "").maxMindLicenseKey = "" ∧
    UEvent.httpGet (sprintfS MaxMindGeoLiteCityUrl "") ∈
      (UpdateDatabase (EnvConfig.mk "" MaxMindGeoLiteCityUrl "/p" "")
        ⟨0, true, none, true, [], false, true, true, (fun _ => true), true⟩
        ⟨none, none⟩).2.2 :=
  update_ignores_disable_flag (EnvConfig.mk "" MaxMindGeoLiteCityUrl "/p" "")
    ⟨0, true, none, true, [], false, true, true, (fun _ => true), true⟩
    ⟨none, none⟩ (by decide) rfl rfl

/-! ## Claim about range-configuration errors -/

lemma initRangesLoop_bad (l : List (List Char))
    (h : ∃ e ∈ l, badRangeEntry e = true) :
    ∃ msg, initRangesLoop l = .error msg := by
  induction l with
  | nil => simp at h
  | cons e rest ih =>
    obtain ⟨x, hx, hbad⟩ := h
    by_cases he : trimChars e = []
    · have hxr : x ∈ rest := by
        rcases List.mem_cons.mp hx with heq | hxr
        · subst heq
          rw [badRangeEntry, if_pos he] at hbad
          cases hbad
        · exact hxr
      obtain ⟨msg, hmsg⟩ := ih ⟨x, hxr, hbad⟩
      refine ⟨msg, ?_⟩
      simp only [initRangesLoop]
      rw [if_pos he]
      exact hmsg
    · cases hp : parseCIDR (String.mk (trimChars e)) with
      | none =>
        refine ⟨"invalid IPv6 range " ++ String.mk (trimChars e), ?_⟩
        simp only [initRangesLoop]
        rw [if_neg he, hp]
      | some c =>
        by_cases hc : c.isIPv4Net = true
        · refine ⟨"range " ++ String.mk (trimChars e) ++ " is not a valid IPv6 range", ?_⟩
          simp only [initRangesLoop]
          rw [if_neg he, hp]
          simp [hc]
        · have hxr : x ∈ rest := by
            rcases List.mem_cons.mp hx with heq | hxr
            · subst heq
              rw [badRangeEntry, if_neg he, hp] at hbad
              exact absurd hbad hc
            · exact hxr
          obtain ⟨msg, hmsg⟩ := ih ⟨x, hxr, hbad⟩
          refine ⟨msg, ?_⟩
          simp only [initRangesLoop]
          rw [if_neg he, hp]
          simp only [hc, Bool.false_eq_true, if_false, hmsg]

/-- Claim C8: any configuration whose comma-separated local-IPv6-ranges list
contains an entry that fails CIDR parsing or parses as an IPv4 range still
constructs a service, with an empty local range set, so classifier step 1
never matches while the remaining classifier steps are unaffected. -/
theorem bad_ranges_degrade (cfg : EnvConfig)
    (h : ∃ e ∈ splitOnChar ',' cfg.localIPv6Ranges.data, badRangeEntry e = true) :
    (NewGeoLiteService cfg).localIPv6Ranges = []
    ∧ (∀ a, isLocalIPv6 (NewGeoLiteService cfg).localIPv6Ranges a = false)
    ∧ (∀ w str, GetLocationByIP (NewGeoLiteService cfg) w str =
        GetLocationByIP ⟨(NewGeoLiteService cfg).disableUpdater, []⟩ w str) := by
  have hne : cfg.localIPv6Ranges ≠ "" := by
    intro he
    obtain ⟨x, hx, hbad⟩ := h
    rw [he] at hx
    have hd : ("" : String).data = [] := rfl
    rw [hd] at hx
    have hsp : splitOnChar ',' [] = [[]] := rfl
    rw [hsp] at hx
    rcases List.mem_cons.mp hx with heq | habs
    · subst heq
      exact absurd hbad (by decide)
    · cases habs
  obtain ⟨msg, hmsg⟩ := initRangesLoop_bad _ h
  have hranges : (NewGeoLiteService cfg).localIPv6Ranges = [] := by
    simp [NewGeoLiteService, initializeIPv6LocalRanges, hne, hmsg]
  refine ⟨hranges, fun a => ?_, fun w str => ?_⟩
  · rw [hranges]
    cases a <;> simp [isLocalIPv6]
  · have heta : NewGeoLiteService cfg =
        ⟨(NewGeoLiteService cfg).disableUpdater, (NewGeoLiteService cfg).localIPv6Ranges⟩ := rfl
    rw [heta, hranges]

theorem bad_ranges_degrade_witness :
    (NewGeoLiteService (EnvConfig.mk "k" "u" "/p" "10.0.0.0/8,fd00::/8")).localIPv6Ranges = [] :=
  (bad_ranges_degrade (EnvConfig.mk "k" "u" "/p" "10.0.0.0/8,fd00::/8") (by decide)).1

end GeoLite
